import Mathlib

/-!
Shallow embedding of the cs2-stat scraping pipeline (Go, package server):
the data model, match assembly and validation, per-match aggregation,
match-link deduplication, the leaderboard URL builder, the player-details
worker pool collector, and the batch insert transaction. Go float64 values
are modelled as exact rationals; strconv.ParseFloat is modelled by a
base-10 decimal parser returning the exact rational value.
-/

/-- Embeds the Go struct PlayerStats: the 8 positional string fields of one
scraped player row. -/
structure PlayerStats where
  Name : String
  LeetifyRating : String
  PersonalPerformance : String
  HLTVRating : String
  KD : String
  ADR : String
  Aim : String
  Utility : String
deriving DecidableEq

/-- Embeds the Go struct Team: a list of players plus the won flag. -/
structure Team where
  Players : List PlayerStats
  Won : Bool
deriving DecidableEq

/-- Embeds the Go struct Match. The Go field Teams is a two-element array;
index 0 (the winner) is Teams0 and index 1 (the loser) is Teams1. -/
structure Match where
  Teams0 : Team
  Teams1 : Team
  MatchURL : String
deriving DecidableEq

/-- Embeds the Go struct MatchAverageStats; the twelve float64 fields are
modelled as exact rationals. -/
structure MatchAverageStats where
  MatchURL : String
  WinAvgLeetifyRating : ℚ
  WinAvgPersonalPerformance : ℚ
  WinAvgHTLVRating : ℚ
  WinAvgKD : ℚ
  WinAvgAim : ℚ
  WinAvgUtility : ℚ
  LossAvgLeetifyRating : ℚ
  LossAvgPersonalPerformance : ℚ
  LossAvgHTLVRating : ℚ
  LossAvgKD : ℚ
  LossAvgAim : ℚ
  LossAvgUtility : ℚ
deriving DecidableEq

/-- Embeds the Go struct ScrapedMatchData: the raw row table scraped from
one match page, tagged with the match URL. -/
structure ScrapedMatchData where
  Data : List (List String)
  URL : String
deriving DecidableEq

/-- Value of a list of decimal digit characters, most significant first. -/
def digitsToNat (ds : List Char) : Nat :=
  ds.foldl (fun a c => 10 * a + (c.toNat - Char.toNat '0')) 0

/-- Models strconv.ParseFloat (bitSize 64) on the base-10 decimal forms:
an optional sign, an integer part and/or a fractional part with at least
one digit overall, and an optional exponent; the whole string must be
consumed. The numeric value is returned exactly as a rational instead of
being rounded to binary64. Special forms (inf, nan, hex mantissas,
underscore separators) are not modelled; none is a parse error. -/
def parseDecimal (s : String) : Option ℚ :=
  let cs := s.data
  let signRest : Bool × List Char :=
    match cs with
    | '-' :: r => (true, r)
    | '+' :: r => (false, r)
    | _ => (false, cs)
  let neg := signRest.1
  let ipRest := signRest.2.span Char.isDigit
  let ip := ipRest.1
  let fpRest : List Char × List Char :=
    match ipRest.2 with
    | '.' :: r => r.span Char.isDigit
    | _ => ([], ipRest.2)
  let fp := fpRest.1
  if ip = [] ∧ fp = [] then none
  else
    let mant : ℚ := (digitsToNat ip : ℚ) + (digitsToNat fp : ℚ) / ((10 : ℚ) ^ fp.length)
    let signed : ℚ := if neg then -mant else mant
    match fpRest.2 with
    | [] => some signed
    | e :: r3 =>
      if e = 'e' ∨ e = 'E' then
        let expRest : Bool × List Char :=
          match r3 with
          | '-' :: t => (true, t)
          | '+' :: t => (false, t)
          | _ => (false, r3)
        let edRest := expRest.2.span Char.isDigit
        if edRest.1 = [] ∨ edRest.2 ≠ [] then none
        else
          let ex : ℤ :=
            if expRest.1 then -(digitsToNat edRest.1 : ℤ) else (digitsToNat edRest.1 : ℤ)
          some (signed * (10 : ℚ) ^ ex)
      else none

/-!
Match assembly and validation (the loop over allMatches inside
scrapeMatchesWithWorkers). The Go code filters out the empty rows, skips
a scraped table with fewer than 10 remaining rows, and builds PlayerStats
from cells 0 to 7 of each of the first 10 rows; indexing a row that has
fewer than 8 cells is a runtime panic, modelled by the Except error.
-/

/-- Embeds the filter in scrapeMatchesWithWorkers that drops the empty
rows of one scraped table (the validMatches loop). -/
def nonEmptyRows (sm : ScrapedMatchData) : List (List String) :=
  sm.Data.filter (fun player => player.length != 0)

/-- Embeds the PlayerStats construction from one row: the Go code reads
cells 0 to 7 positionally; a row with fewer than 8 cells makes the Go
program panic with an index out of range, modelled by none. -/
def buildPlayerStats : List String → Option PlayerStats
  | n :: lr :: pp :: hr :: kd :: adr :: aim :: ut :: _ =>
    some ⟨n, lr, pp, hr, kd, adr, aim, ut⟩
  | _ => none

/-- Builds PlayerStats for every row in order, failing at the first row
with fewer than 8 cells (the first index out of range panic). -/
def buildPlayers : List (List String) → Option (List PlayerStats)
  | [] => some []
  | row :: rest =>
    match buildPlayerStats row with
    | none => none
    | some p =>
      match buildPlayers rest with
      | none => none
      | some ps => some (p :: ps)

/-- Embeds the per-table body of the assembly loop in
scrapeMatchesWithWorkers: ok none is a logged skip (fewer than 10
non-empty rows), ok (some m) is an emitted Match, and error () is the
index out of range panic on a narrow row. The first 5 built players form
the winning team and the next 5 the losing team. -/
def assembleMatch (sm : ScrapedMatchData) : Except Unit (Option Match) :=
  let validMatches := nonEmptyRows sm
  if validMatches.length < 10 then
    Except.ok none
  else
    match buildPlayers (validMatches.take 10) with
    | none => Except.error ()
    | some ps =>
      Except.ok (some
        { Teams0 := { Players := ps.take 5, Won := true }
          Teams1 := { Players := ps.drop 5, Won := false }
          MatchURL := sm.URL })

/-- Embeds the whole assembly loop of scrapeMatchesWithWorkers over the
collected scraped tables; a panic anywhere aborts the function. -/
def assembleMatches : List ScrapedMatchData → Except Unit (List Match)
  | [] => Except.ok []
  | sm :: rest =>
    match assembleMatch sm with
    | Except.error e => Except.error e
    | Except.ok none => assembleMatches rest
    | Except.ok (some m) =>
      match assembleMatches rest with
      | Except.error e => Except.error e
      | Except.ok ms => Except.ok (m :: ms)

/-- Spec side description of the positional cell mapping of section 4.4:
cells 0 to 7 of a row become the fields name, rating,
personal-performance, reference-rating, kill-death, ADR, aim, utility;
stated with default-valued access so it is total. -/
def specPlayerOfRow (r : List String) : PlayerStats :=
  ⟨r.getD 0 "", r.getD 1 "", r.getD 2 "", r.getD 3 "",
   r.getD 4 "", r.getD 5 "", r.getD 6 "", r.getD 7 ""⟩

/-!
Aggregation: getAverageMatchStats. The Go code keeps running float64
sums for the six parsed fields of each team and abandons the match at
the first field that fails strconv.ParseFloat; sums and averages are
modelled as exact rationals.
-/

/-- Running sums of the six numeric fields of one team. -/
structure TeamSums where
  leetify : ℚ
  personalPerformance : ℚ
  hltv : ℚ
  kd : ℚ
  aim : ℚ
  utility : ℚ
deriving DecidableEq

/-- The all-zero initial sums of the Go var declaration block. -/
def zeroSums : TeamSums := ⟨0, 0, 0, 0, 0, 0⟩

/-- Embeds one iteration of the per-player loop of getAverageMatchStats:
parse the six required fields in source order (the ADR field is not
parsed by the Go code) and add them to the running sums; the first parse
failure sets skipMatch, modelled by none. -/
def addPlayerStats (acc : TeamSums) (p : PlayerStats) : Option TeamSums := do
  let lr ← parseDecimal p.LeetifyRating
  let pp ← parseDecimal p.PersonalPerformance
  let hr ← parseDecimal p.HLTVRating
  let kdr ← parseDecimal p.KD
  let aim ← parseDecimal p.Aim
  let util ← parseDecimal p.Utility
  some ⟨acc.leetify + lr, acc.personalPerformance + pp, acc.hltv + hr,
        acc.kd + kdr, acc.aim + aim, acc.utility + util⟩

/-- Embeds the per-team loop of getAverageMatchStats: fold the players
into running sums, abandoning at the first parse failure. -/
def sumTeamGo (acc : TeamSums) : List PlayerStats → Option TeamSums
  | [] => some acc
  | p :: ps =>
    match addPlayerStats acc p with
    | none => none
    | some acc2 => sumTeamGo acc2 ps

/-- The fixed team size constant of getAverageMatchStats. -/
def teamSize : ℚ := 5

/-- Embeds the per-match body of getAverageMatchStats: sum the winning
team, then the losing team, skipping the match (none) if either team has
a field that fails to parse, and otherwise divide the twelve sums by the
team size. -/
def averageOfMatch (m : Match) : Option MatchAverageStats :=
  match sumTeamGo zeroSums m.Teams0.Players with
  | none => none
  | some w =>
    match sumTeamGo zeroSums m.Teams1.Players with
    | none => none
    | some l =>
      some
        { MatchURL := m.MatchURL
          WinAvgLeetifyRating := w.leetify / teamSize
          WinAvgPersonalPerformance := w.personalPerformance / teamSize
          WinAvgHTLVRating := w.hltv / teamSize
          WinAvgKD := w.kd / teamSize
          WinAvgAim := w.aim / teamSize
          WinAvgUtility := w.utility / teamSize
          LossAvgLeetifyRating := l.leetify / teamSize
          LossAvgPersonalPerformance := l.personalPerformance / teamSize
          LossAvgHTLVRating := l.hltv / teamSize
          LossAvgKD := l.kd / teamSize
          LossAvgAim := l.aim / teamSize
          LossAvgUtility := l.utility / teamSize }

/-- Embeds getAverageMatchStats: the loop appends one record per match
that survives, in order; the Go error result is always nil and is
omitted. -/
def getAverageMatchStats (ms : List Match) : List MatchAverageStats :=
  ms.filterMap averageOfMatch

/-- The six required fields of one player all parse. -/
def playerParses (p : PlayerStats) : Prop :=
  (parseDecimal p.LeetifyRating).isSome = true ∧
  (parseDecimal p.PersonalPerformance).isSome = true ∧
  (parseDecimal p.HLTVRating).isSome = true ∧
  (parseDecimal p.KD).isSome = true ∧
  (parseDecimal p.Aim).isSome = true ∧
  (parseDecimal p.Utility).isSome = true

instance (p : PlayerStats) : Decidable (playerParses p) := by
  unfold playerParses; infer_instance

/-!
Extraction worker, link deduplication, URL builder, player details
collector and batch insert.
-/

/-- Embeds the per-job body of matchesWorker. The chromedp interaction is
an oracle from a match link to either a failure (none, the logged error
branch) or the scraped result phrase together with the row table. A
failed scrape emits nothing; a result phrase equal to the literal TIE
indicator emits nothing; otherwise one tagged ScrapedMatchData is sent to
the results channel. -/
def matchesWorkerJob (scrape : String → Option (String × List (List String)))
    (matchLink : String) : List ScrapedMatchData :=
  match scrape matchLink with
  | none => []
  | some (matchResult, matchData) =>
    if matchResult = "TIE" then []
    else [{ Data := matchData, URL := matchLink }]

/-- Embeds the deduplication loop of scrapeMatchLinksWithWorkers; the Go
seen map of booleans is modelled by the list of links already seen. -/
def uniqueGo (seen : List String) : List String → List String
  | [] => []
  | link :: rest =>
    if link ∈ seen then uniqueGo seen rest
    else link :: uniqueGo (link :: seen) rest

/-- Embeds the unique-links pass at the end of
scrapeMatchLinksWithWorkers, starting from an empty seen map. -/
def uniqueMatchLinks (matchLinks : List String) : List String :=
  uniqueGo [] matchLinks

/-- The Go constant topPlayersURL. -/
def topPlayersURL : String :=
  "https://open.faceit.com/data/v4/rankings/games/cs2/regions/"

/-- Embeds getTopPlayersURL: the leaderboard request URL, with the limit
clamped to maxLimit 50 when it exceeds 50. -/
def getTopPlayersURL (region : String) (limit : Int) : String :=
  let maxLimit : Int := 50
  if limit > maxLimit then
    topPlayersURL ++ region ++ "?offset=0&limit=" ++ toString maxLimit
  else
    topPlayersURL ++ region ++ "?offset=0&limit=" ++ toString limit

/-- Embeds the Go struct PlayerDetails. -/
structure PlayerDetails where
  PlayerID : String
  Nickname : String
  Avatar : String
  Country : String
  SteamID64 : String
  FaceitURL : String
deriving DecidableEq

/-- Embeds getPlayerDetailsWithWorkers. Fetching is an oracle from a
player ID to either its details or a failure (none). The workers drain
the jobs channel and send one result per successful fetch, so exactly
(playerIDs.filterMap fetchSinglePlayer).length results are ever sent.
The Go collector loops playerIDs.length times selecting on the results
channel and on ctx.Done; when fewer results exist than iterations, the
receive blocks until the shared context deadline fires and the function
returns nil together with ctx.Err, modelled by Except.error. -/
def getPlayerDetailsWithWorkers (fetchSinglePlayer : String → Option PlayerDetails)
    (playerIDs : List String) : Except Unit (List PlayerDetails) :=
  let players := playerIDs.filterMap fetchSinglePlayer
  if players.length = playerIDs.length then Except.ok players
  else Except.error ()

/-- Embeds the Go struct database.CreateMatchParams built from one
MatchAverageStats record; float64 fields modelled as rationals. -/
structure CreateMatchParams where
  MatchUrl : String
  WAvgLeetifyRating : ℚ
  WAvgPersonalPerformance : ℚ
  WAvgHltvRating : ℚ
  WAvgKd : ℚ
  WAvgAim : ℚ
  WAvgUtility : ℚ
  LAvgLeetifyRating : ℚ
  LAvgPersonalPerformance : ℚ
  LAvgHltvRating : ℚ
  LAvgKd : ℚ
  LAvgAim : ℚ
  LAvgUtility : ℚ
deriving DecidableEq

/-- Embeds the insert loop of BatchInsertMatches running inside the open
transaction: qtx.CreateMatch appends one record to the transaction
pending writes; per-record failure is an oracle predicate
createMatchFails (the database rejecting the row); the first failure
aborts the loop with none. -/
def txCreateMatches (createMatchFails : CreateMatchParams → Bool)
    (pending : List CreateMatchParams) :
    List CreateMatchParams → Option (List CreateMatchParams)
  | [] => some pending
  | m :: rest =>
    if createMatchFails m then none
    else txCreateMatches createMatchFails (pending ++ [m]) rest

/-- Embeds BatchInsertMatches over a database state modelled as the list
of already persisted records: on a failed insert the transaction is
rolled back (the state is unchanged) and true (an error) is returned; on
success the commit appends every pending record and false (nil error) is
returned. -/
def BatchInsertMatches (createMatchFails : CreateMatchParams → Bool)
    (db : List CreateMatchParams) (ms : List CreateMatchParams) :
    List CreateMatchParams × Bool :=
  match txCreateMatches createMatchFails [] ms with
  | none => (db, true)
  | some pending => (db ++ pending, false)

/-!
Concrete inputs used by witnesses and counterexamples.
-/

/-- A scraped table of 10 non-empty rows of 8 cells each, all numeric
fields parseable. -/
def smOK : ScrapedMatchData :=
  { Data := List.replicate 10 ["n", "1.0", "1.1", "1.2", "1.3", "80", "60", "40"]
    URL := "u" }

/-- A scraped table of 10 non-empty rows that have only one cell each. -/
def smBad : ScrapedMatchData :=
  { Data := List.replicate 10 ["x"], URL := "m" }

/-- A player row whose six required fields all parse. -/
def pOK : PlayerStats := ⟨"p", "1.0", "1.1", "1.2", "1.3", "80", "60", "40"⟩

/-- A player row whose leetify rating does not parse. -/
def pBad : PlayerStats := ⟨"q", "bad", "1.1", "1.2", "1.3", "80", "60", "40"⟩

/-- A match of two full parseable teams. -/
def mOK : Match :=
  { Teams0 := { Players := List.replicate 5 pOK, Won := true }
    Teams1 := { Players := List.replicate 5 pOK, Won := false }
    MatchURL := "u" }

/-- A match whose losing team has one unparseable field. -/
def mBad : Match :=
  { Teams0 := { Players := List.replicate 5 pOK, Won := true }
    Teams1 := { Players := pBad :: List.replicate 4 pOK, Won := false }
    MatchURL := "v" }

/-- Concrete player details record. -/
def pdOK : PlayerDetails := ⟨"p2", "nick", "av", "US", "765", "fu"⟩

/-- A fetch oracle under which the lookup of p2 succeeds and every other
lookup fails with a network error. -/
def fetchOne : String → Option PlayerDetails :=
  fun playerID => if playerID = "p2" then some pdOK else none

/-- A scrape oracle that reports a TIE result phrase for the page m1. -/
def scrapeTie : String → Option (String × List (List String)) :=
  fun link => if link = "m1" then some ("TIE", [["a"]]) else none

/-- A database oracle that rejects exactly the records whose URL is bad. -/
def failsBadURL (m : CreateMatchParams) : Bool := m.MatchUrl == "bad"

/-- A record the database accepts. -/
def cmpOK : CreateMatchParams := ⟨"ok", 1, 1, 1, 1, 1, 1, 1, 1, 1, 1, 1, 1⟩

/-- A record the database rejects under failsBadURL. -/
def cmpBad : CreateMatchParams := ⟨"bad", 2, 2, 2, 2, 2, 2, 2, 2, 2, 2, 2, 2⟩

/-!
Lemmas about the deduplication loop.
-/

lemma mem_uniqueGo (x : String) (ls : List String) :
    ∀ seen, x ∈ uniqueGo seen ls ↔ x ∈ ls ∧ x ∉ seen := by
  induction ls with
  | nil => intro seen; simp [uniqueGo]
  | cons l ls ih =>
    intro seen
    by_cases h : l ∈ seen
    · simp only [uniqueGo, if_pos h, ih, List.mem_cons]
      constructor
      · rintro ⟨hx, hs⟩
        exact ⟨Or.inr hx, hs⟩
      · rintro ⟨hx | hx, hs⟩
        · exact absurd (hx ▸ h) hs
        · exact ⟨hx, hs⟩
    · simp only [uniqueGo, if_neg h, List.mem_cons, ih]
      by_cases hxl : x = l
      · subst hxl; simp [h]
      · simp only [hxl, false_or]

lemma nodup_uniqueGo (ls : List String) : ∀ seen, (uniqueGo seen ls).Nodup := by
  induction ls with
  | nil => intro seen; simp [uniqueGo]
  | cons l ls ih =>
    intro seen
    by_cases h : l ∈ seen
    · simpa [uniqueGo, if_pos h] using ih seen
    · simp only [uniqueGo, if_neg h]
      refine List.nodup_cons.mpr ⟨fun hl => ?_, ih (l :: seen)⟩
      rcases (mem_uniqueGo l ls (l :: seen)).mp hl with ⟨-, hns⟩
      exact hns (List.mem_cons_self l seen)

lemma pairwise_indexOf_lift (l : String) (ls out : List String)
    (hne : ∀ x ∈ out, x ≠ l)
    (h : out.Pairwise fun x y => ls.indexOf x < ls.indexOf y) :
    out.Pairwise fun x y => (l :: ls).indexOf x < (l :: ls).indexOf y := by
  induction out with
  | nil => exact List.Pairwise.nil
  | cons a out ih =>
    rcases List.pairwise_cons.mp h with ⟨ha, h2⟩
    refine List.pairwise_cons.mpr
      ⟨?_, ih (fun x hx => hne x (List.mem_cons_of_mem a hx)) h2⟩
    intro y hy
    have hal : a ≠ l := hne a (List.mem_cons_self a out)
    have hyl : y ≠ l := hne y (List.mem_cons_of_mem a hy)
    show (l :: ls).indexOf a < (l :: ls).indexOf y
    rw [List.indexOf_cons_ne ls (Ne.symm hal), List.indexOf_cons_ne ls (Ne.symm hyl)]
    exact Nat.succ_lt_succ (ha y hy)

lemma pairwise_uniqueGo (ls : List String) :
    ∀ seen, (uniqueGo seen ls).Pairwise fun x y => ls.indexOf x < ls.indexOf y := by
  induction ls with
  | nil => intro seen; simp [uniqueGo]
  | cons l ls ih =>
    intro seen
    by_cases h : l ∈ seen
    · simp only [uniqueGo, if_pos h]
      apply pairwise_indexOf_lift
      · intro x hx
        rcases (mem_uniqueGo x ls seen).mp hx with ⟨-, hns⟩
        intro e
        exact hns (by rw [e]; exact h)
      · exact ih seen
    · simp only [uniqueGo, if_neg h]
      refine List.pairwise_cons.mpr ⟨?_, ?_⟩
      · intro y hy
        rcases (mem_uniqueGo y ls (l :: seen)).mp hy with ⟨-, hyn⟩
        have hyl : y ≠ l := fun e => hyn (by rw [e]; exact List.mem_cons_self l seen)
        show (l :: ls).indexOf l < (l :: ls).indexOf y
        rw [List.indexOf_cons_self, List.indexOf_cons_ne ls (Ne.symm hyl)]
        exact Nat.succ_pos _
      · apply pairwise_indexOf_lift
        · intro x hx
          rcases (mem_uniqueGo x ls (l :: seen)).mp hx with ⟨-, hxn⟩
          exact fun e => hxn (by rw [e]; exact List.mem_cons_self l seen)
        · exact ih (l :: seen)

/-- C4: the deduplication step of scrapeMatchLinksWithWorkers returns a
list with no repeated locator, containing an occurrence of exactly the
locators present in the input, and listing them in the order of their
first occurrence in the input. -/
theorem uniqueMatchLinks_spec (links : List String) :
    (uniqueMatchLinks links).Nodup ∧
    (∀ x, x ∈ uniqueMatchLinks links ↔ x ∈ links) ∧
    (uniqueMatchLinks links).Pairwise
      (fun x y => links.indexOf x < links.indexOf y) := by
  refine ⟨nodup_uniqueGo links [], fun x => ?_, pairwise_uniqueGo links []⟩
  rw [uniqueMatchLinks, mem_uniqueGo]
  simp

/-- C10: getTopPlayersURL clamps the page size at 50: a limit above 50
is replaced by 50 in the generated URL, and a limit of at most 50 is
used unchanged. -/
theorem getTopPlayersURL_clamp (region : String) (limit : Int) :
    (50 < limit → getTopPlayersURL region limit =
        topPlayersURL ++ region ++ "?offset=0&limit=" ++ toString (50 : Int)) ∧
    (limit ≤ 50 → getTopPlayersURL region limit =
        topPlayersURL ++ region ++ "?offset=0&limit=" ++ toString limit) ∧
    toString (50 : Int) = "50" := by
  have e : getTopPlayersURL region limit =
      if 50 < limit then
        topPlayersURL ++ region ++ "?offset=0&limit=" ++ toString (50 : Int)
      else topPlayersURL ++ region ++ "?offset=0&limit=" ++ toString limit := rfl
  refine ⟨fun h => ?_, fun h => ?_, by decide⟩
  · rw [e, if_pos h]
  · rw [e, if_neg (not_lt.mpr h)]

/-- Witness for C10 at region EU with limits 100 and 5. -/
theorem getTopPlayersURL_clamp_witness :
    getTopPlayersURL "EU" 100 =
      topPlayersURL ++ "EU" ++ "?offset=0&limit=" ++ toString (50 : Int) ∧
    getTopPlayersURL "EU" 5 =
      topPlayersURL ++ "EU" ++ "?offset=0&limit=" ++ toString (5 : Int) :=
  ⟨(getTopPlayersURL_clamp "EU" 100).1 (by decide),
   (getTopPlayersURL_clamp "EU" 5).2.1 (by decide)⟩

/-!
Lemmas about the batch insert transaction.
-/

lemma txCreateMatches_ok (f : CreateMatchParams → Bool) :
    ∀ (ms : List CreateMatchParams), (∀ m ∈ ms, f m = false) →
      ∀ pending, txCreateMatches f pending ms = some (pending ++ ms) := by
  intro ms
  induction ms with
  | nil => intro _ p; simp [txCreateMatches]
  | cons m ms ih =>
    intro h p
    have hm : f m = false := h m (List.mem_cons_self m ms)
    simp only [txCreateMatches, hm, Bool.false_eq_true, if_false]
    rw [ih (fun x hx => h x (List.mem_cons_of_mem m hx)) (p ++ [m])]
    simp

lemma txCreateMatches_fail (f : CreateMatchParams → Bool) :
    ∀ (ms : List CreateMatchParams), (∃ m ∈ ms, f m = true) →
      ∀ pending, txCreateMatches f pending ms = none := by
  intro ms
  induction ms with
  | nil => rintro ⟨m, hm, -⟩; exact absurd hm (List.not_mem_nil m)
  | cons m ms ih =>
    rintro ⟨x, hx, hfx⟩ p
    by_cases hm : f m = true
    · simp [txCreateMatches, hm]
    · have hm2 : f m = false := by
        cases h2 : f m
        · rfl
        · exact absurd h2 hm
      simp only [txCreateMatches, hm2, Bool.false_eq_true, if_false]
      apply ih
      rcases List.mem_cons.mp hx with rfl | hx2
      · exact absurd hfx hm
      · exact ⟨x, hx2, hfx⟩

/-- C8: BatchInsertMatches is all-or-nothing: if the database rejects
any record of the batch, the transaction is rolled back, the persisted
state is unchanged and the error is returned; if it accepts every
record, the commit persists all of them and no error is returned. -/
theorem BatchInsertMatches_allOrNothing (f : CreateMatchParams → Bool)
    (db ms : List CreateMatchParams) :
    ((∀ m ∈ ms, f m = false) → BatchInsertMatches f db ms = (db ++ ms, false)) ∧
    ((∃ m ∈ ms, f m = true) → BatchInsertMatches f db ms = (db, true)) := by
  constructor
  · intro h
    rw [BatchInsertMatches, txCreateMatches_ok f ms h []]
    simp
  · intro h
    rw [BatchInsertMatches, txCreateMatches_fail f ms h []]

/-- Witness for C8: a fully accepted batch is persisted whole, and a
batch with one rejected record leaves the database unchanged. -/
theorem BatchInsertMatches_allOrNothing_witness :
    BatchInsertMatches failsBadURL [] [cmpOK] = ([] ++ [cmpOK], false) ∧
    BatchInsertMatches failsBadURL [] [cmpOK, cmpBad] = ([], true) :=
  ⟨(BatchInsertMatches_allOrNothing failsBadURL [] [cmpOK]).1 (by decide),
   (BatchInsertMatches_allOrNothing failsBadURL [] [cmpOK, cmpBad]).2
     ⟨cmpBad, by decide, by decide⟩⟩

/-- C7: a match job whose scraped result phrase is the literal TIE
indicator emits no ScrapedMatchData, so assembly and aggregation produce
zero Match and zero MatchAverageStats records for it. -/
theorem matchesWorker_tieDropped
    (scrape : String → Option (String × List (List String)))
    (matchLink : String) (matchData : List (List String))
    (h : scrape matchLink = some ("TIE", matchData)) :
    matchesWorkerJob scrape matchLink = [] ∧
    assembleMatches (matchesWorkerJob scrape matchLink) = Except.ok [] ∧
    getAverageMatchStats [] = [] := by
  have e : matchesWorkerJob scrape matchLink = [] := by
    simp [matchesWorkerJob, h]
  exact ⟨e, by rw [e]; rfl, rfl⟩

/-- Witness for C7 at a concrete scrape oracle reporting TIE for m1. -/
theorem matchesWorker_tieDropped_witness :
    matchesWorkerJob scrapeTie "m1" = [] ∧
    assembleMatches (matchesWorkerJob scrapeTie "m1") = Except.ok [] ∧
    getAverageMatchStats [] = [] :=
  matchesWorker_tieDropped scrapeTie "m1" [["a"]] (by decide)

/-- C6 (documents the code bug): under a fetch oracle where the lookup
of p1 fails and the lookup of p2 succeeds, getPlayerDetailsWithWorkers
returns the context error and no player details at all, instead of the
successfully fetched details of p2. -/
theorem getPlayerDetailsWithWorkers_dropIsHardFailure :
    (fetchOne "p2").isSome = true ∧ fetchOne "p1" = none ∧
    getPlayerDetailsWithWorkers fetchOne ["p1", "p2"] = Except.error () :=
  ⟨rfl, rfl, rfl⟩

/-!
Lemmas about match assembly.
-/

lemma buildPlayerStats_of_width (r : List String) (h : 8 ≤ r.length) :
    buildPlayerStats r = some (specPlayerOfRow r) := by
  rcases r with - | ⟨a0, r⟩
  · simp at h
  rcases r with - | ⟨a1, r⟩
  · simp at h
  rcases r with - | ⟨a2, r⟩
  · simp at h
  rcases r with - | ⟨a3, r⟩
  · simp at h
  rcases r with - | ⟨a4, r⟩
  · simp at h
  rcases r with - | ⟨a5, r⟩
  · simp at h
  rcases r with - | ⟨a6, r⟩
  · simp at h
  rcases r with - | ⟨a7, r⟩
  · simp at h
  rfl

lemma buildPlayers_of_width (rows : List (List String))
    (h : ∀ r ∈ rows, 8 ≤ r.length) :
    buildPlayers rows = some (rows.map specPlayerOfRow) := by
  induction rows with
  | nil => rfl
  | cons r rows ih =>
    simp only [buildPlayers,
      buildPlayerStats_of_width r (h r (List.mem_cons_self r rows)),
      ih (fun x hx => h x (List.mem_cons_of_mem r hx)), List.map_cons]

lemma assembleMatch_of_width (sm : ScrapedMatchData)
    (hw : ∀ r ∈ (nonEmptyRows sm).take 10, 8 ≤ r.length)
    (h10 : ¬ (nonEmptyRows sm).length < 10) :
    assembleMatch sm = Except.ok (some
      { Teams0 :=
          { Players := (((nonEmptyRows sm).take 10).take 5).map specPlayerOfRow
            Won := true }
        Teams1 :=
          { Players := (((nonEmptyRows sm).take 10).drop 5).map specPlayerOfRow
            Won := false }
        MatchURL := sm.URL }) := by
  simp only [assembleMatch, if_neg h10, buildPlayers_of_width _ hw,
    List.map_take, List.map_drop]

/-- C2 (amended with the width precondition): provided each of the first
10 non-empty rows has at least 8 cells, assembly of one scraped table
produces a Match exactly when at least 10 non-empty rows remain after
removing empty rows, and that Match is built from the first 10 non-empty
rows, cells mapped positionally, rows 0 to 4 forming the winning team
and rows 5 to 9 the losing team. -/
theorem assembleMatch_spec (sm : ScrapedMatchData)
    (hw : ∀ r ∈ (nonEmptyRows sm).take 10, 8 ≤ r.length) :
    ((∃ m, assembleMatch sm = Except.ok (some m)) ↔
      10 ≤ (nonEmptyRows sm).length) ∧
    (∀ m, assembleMatch sm = Except.ok (some m) →
      m.MatchURL = sm.URL ∧ m.Teams0.Won = true ∧ m.Teams1.Won = false ∧
      m.Teams0.Players = (((nonEmptyRows sm).take 10).take 5).map specPlayerOfRow ∧
      m.Teams1.Players = (((nonEmptyRows sm).take 10).drop 5).map specPlayerOfRow) := by
  by_cases h10 : (nonEmptyRows sm).length < 10
  · have e : assembleMatch sm = Except.ok none := by
      simp only [assembleMatch, if_pos h10]
    constructor
    · constructor
      · rintro ⟨m, hm⟩
        rw [e] at hm
        simp at hm
      · intro h
        omega
    · intro m hm
      rw [e] at hm
      simp at hm
  · have e := assembleMatch_of_width sm hw h10
    refine ⟨⟨fun _ => by omega, fun _ => ⟨_, e⟩⟩, fun m hm => ?_⟩
    rw [e] at hm
    have hm2 := hm
    simp only [Except.ok.injEq, Option.some.injEq] at hm2
    subst hm2
    exact ⟨rfl, rfl, rfl, rfl, rfl⟩

/-- Witness for C2 at a table of 10 full rows. -/
theorem assembleMatch_spec_witness : ∃ m, assembleMatch smOK = Except.ok (some m) :=
  (assembleMatch_spec smOK (by decide)).1.mpr (by decide)

/-- C2 counterexample to the unamended claim: a table with 10 non-empty
rows of a single cell each reaches the positional access and fails (the
Go program panics with an index out of range), so no Match is produced
although at least 10 non-empty rows remain. -/
theorem assembleMatch_tenNarrowRows_counterexample :
    10 ≤ (nonEmptyRows smBad).length ∧ assembleMatch smBad = Except.error () :=
  ⟨by decide, rfl⟩

/-- C9: whenever each of the first 10 non-empty rows has at least 8
cells, the positional accesses of assembly are in bounds: the panic
branch of the embedding is unreachable. -/
theorem assembleMatch_widthSafe (sm : ScrapedMatchData)
    (hw : ∀ r ∈ (nonEmptyRows sm).take 10, 8 ≤ r.length) :
    assembleMatch sm ≠ Except.error () := by
  by_cases h10 : (nonEmptyRows sm).length < 10
  · simp only [assembleMatch, if_pos h10]
    exact fun h => Except.noConfusion h
  · rw [assembleMatch_of_width sm hw h10]
    exact fun h => Except.noConfusion h

/-- Witness for C9 at a table of 10 full rows. -/
theorem assembleMatch_widthSafe_witness : assembleMatch smOK ≠ Except.error () :=
  assembleMatch_widthSafe smOK (by decide)



/-!
Lemmas about aggregation.
-/

lemma addPlayerStats_isSome (acc : TeamSums) (p : PlayerStats) :
    (addPlayerStats acc p).isSome = true ↔ playerParses p := by
  unfold addPlayerStats playerParses
  cases parseDecimal p.LeetifyRating <;>
    cases parseDecimal p.PersonalPerformance <;>
    cases parseDecimal p.HLTVRating <;>
    cases parseDecimal p.KD <;>
    cases parseDecimal p.Aim <;>
    cases parseDecimal p.Utility <;>
    simp

lemma sumTeamGo_isSome (ps : List PlayerStats) :
    ∀ acc, (sumTeamGo acc ps).isSome = true ↔ ∀ p ∈ ps, playerParses p := by
  induction ps with
  | nil => intro acc; simp [sumTeamGo]
  | cons p ps ih =>
    intro acc
    cases h : addPlayerStats acc p with
    | none =>
      simp only [sumTeamGo, h, Option.isSome_none]
      constructor
      · intro hf
        exact absurd hf Bool.false_ne_true
      · intro hall
        have hp := hall p (List.mem_cons_self p ps)
        have h2 := (addPlayerStats_isSome acc p).mpr hp
        rw [h] at h2
        simp at h2
    | some acc2 =>
      have hp : playerParses p := (addPlayerStats_isSome acc p).mp (by rw [h]; rfl)
      simp only [sumTeamGo, h, ih acc2, List.forall_mem_cons, hp, true_and]

lemma averageOfMatch_isSome (m : Match) :
    (averageOfMatch m).isSome = true ↔
      (∀ p ∈ m.Teams0.Players, playerParses p) ∧
      (∀ p ∈ m.Teams1.Players, playerParses p) := by
  have e0 := sumTeamGo_isSome m.Teams0.Players zeroSums
  have e1 := sumTeamGo_isSome m.Teams1.Players zeroSums
  cases h0 : sumTeamGo zeroSums m.Teams0.Players with
  | none =>
    rw [h0] at e0
    simp only [Option.isSome_none] at e0
    simp only [averageOfMatch, h0, Option.isSome_none]
    constructor
    · intro hf
      exact absurd hf Bool.false_ne_true
    · rintro ⟨ha, -⟩
      exact e0.mpr ha
  | some w =>
    rw [h0] at e0
    simp only [Option.isSome_some] at e0
    cases h1 : sumTeamGo zeroSums m.Teams1.Players with
    | none =>
      rw [h1] at e1
      simp only [Option.isSome_none] at e1
      simp only [averageOfMatch, h0, h1, Option.isSome_none]
      constructor
      · intro hf
        exact absurd hf Bool.false_ne_true
      · rintro ⟨-, hb⟩
        exact e1.mpr hb
    | some l =>
      rw [h1] at e1
      simp only [Option.isSome_some] at e1
      simp only [averageOfMatch, h0, h1, Option.isSome_some, true_iff]
      exact ⟨e0.mp trivial, e1.mp trivial⟩

/-- C1: aggregation is all-or-nothing per match: a match of two 5-player
teams yields exactly one MatchAverageStats record when all six required
fields of all ten players parse, yields zero records when any field of
any player fails to parse, and contributes independently of the other
matches of the batch. -/
theorem getAverageMatchStats_allOrNothing (m : Match)
    (_h5w : m.Teams0.Players.length = 5) (_h5l : m.Teams1.Players.length = 5) :
    ((∀ p ∈ m.Teams0.Players, playerParses p) ∧
        (∀ p ∈ m.Teams1.Players, playerParses p) →
      ∃ r, getAverageMatchStats [m] = [r]) ∧
    (¬ ((∀ p ∈ m.Teams0.Players, playerParses p) ∧
        (∀ p ∈ m.Teams1.Players, playerParses p)) →
      getAverageMatchStats [m] = []) ∧
    (∀ pre post, getAverageMatchStats (pre ++ m :: post) =
      getAverageMatchStats pre ++ getAverageMatchStats [m] ++
        getAverageMatchStats post) := by
  refine ⟨fun h => ?_, fun h => ?_, fun pre post => ?_⟩
  · have hs := (averageOfMatch_isSome m).mpr h
    rcases Option.isSome_iff_exists.mp hs with ⟨r, hr⟩
    exact ⟨r, by simp [getAverageMatchStats, hr]⟩
  · have hf : (averageOfMatch m).isSome = false := by
      cases hh : (averageOfMatch m).isSome
      · rfl
      · exact absurd ((averageOfMatch_isSome m).mp hh) h
    have hnone : averageOfMatch m = none := by
      cases he : averageOfMatch m
      · rfl
      · rw [he] at hf
        simp at hf
    simp [getAverageMatchStats, hnone]
  · rw [getAverageMatchStats, ← List.singleton_append, List.filterMap_append,
      List.filterMap_append]
    simp [getAverageMatchStats, List.append_assoc]

/-- Witness for C1: a fully parseable match yields one record and a
match with one bad field yields none. -/
theorem getAverageMatchStats_allOrNothing_witness :
    (∃ r, getAverageMatchStats [mOK] = [r]) ∧ getAverageMatchStats [mBad] = [] :=
  ⟨(getAverageMatchStats_allOrNothing mOK rfl rfl).1 (by decide),
   (getAverageMatchStats_allOrNothing mBad rfl rfl).2.1 (by decide)⟩
